import Mathlib

/-!
Verification development for the rustfm-scrobble core
(`src/scrobbler.rs` together with the record model and API-client
collaborator described by the specification).

The embedding is shallow: parameter maps (`HashMap<String, String>`)
become association lists whose construction keeps keys distinct, the
system clock and the network transport become explicit oracle inputs,
and every operation additionally returns the list of network calls it
performed, so that "no network call is made" is a provable statement.
-/

set_option autoImplicit false

namespace RustfmScrobble

/-! ### Parameter maps

`HashMap<String, String>` as an association list.  Rust's `HashMap` has
unspecified iteration order; the model fixes insertion order (a fresh
key goes to the end, `insert` on a present key replaces in place), which
is one admissible order.  `entryOrInsert` models
`map.entry(k).or_insert_with(v)`: it inserts only when the key is absent.
-/

abbrev Params := List (String × String)

def Params.hasKey (m : Params) (k : String) : Bool :=
  m.any (fun p => p.1 == k)

def Params.find (m : Params) (k : String) : Option String :=
  (m.find? (fun p => p.1 == k)).map Prod.snd

def Params.insert (m : Params) (k v : String) : Params :=
  if m.hasKey k then m.map (fun p => if p.1 == k then (k, v) else p)
  else m ++ [(k, v)]

def Params.entryOrInsert (m : Params) (k v : String) : Params :=
  if m.hasKey k then m else m ++ [(k, v)]

def Params.keys (m : Params) : List String :=
  m.map Prod.fst

/-! ### The Scrobble record model -/

/-- Modelled from the spec: the `Scrobble` record (the crate's
`models/metadata.rs` is not in the source listing; §3 of the spec).
Artist, track and album are required; the rest are optional. -/
structure Scrobble where
  artist : String
  track : String
  album : String
  albumArtist : Option String := none
  trackNumber : Option Nat := none
  duration : Option Nat := none
  timestamp : Option Nat := none
  mbid : Option String := none
deriving Repr, DecidableEq

/-- Modelled from the spec: a present optional field contributes one
entry to the serialized map, an absent one contributes nothing (§4.1). -/
def optEntry (k : String) (v : Option String) : Params :=
  match v with
  | some s => [(k, s)]
  | none => []

/-- Modelled from the spec: `Scrobble::as_map` — the fixed-key
serialization `{artist, track, album}` plus every optional field that
has been set; integer fields rendered as decimal strings (§4.1). -/
def Scrobble.as_map (s : Scrobble) : Params :=
  [("artist", s.artist), ("track", s.track), ("album", s.album)]
    ++ optEntry "albumArtist" s.albumArtist
    ++ optEntry "trackNumber" (s.trackNumber.map Nat.repr)
    ++ optEntry "duration" (s.duration.map Nat.repr)
    ++ optEntry "timestamp" (s.timestamp.map Nat.repr)
    ++ optEntry "mbid" s.mbid

/-- Modelled from the spec: `ScrobbleBatch` is an ordered sequence of
records, insertion order significant (§3). -/
abbrev ScrobbleBatch := List Scrobble

/-! ### Responses and the network-call trace -/

/-- Payload of a successful session response; the tests deserialize
`key`, `subscriber` and `name`. -/
structure SessionResponse where
  key : String
  subscriber : Nat
  name : String
deriving Repr, DecidableEq

/-- Opaque transport payload: deserialization is outside the core. -/
structure NowPlayingResponse where
  raw : String
deriving Repr, DecidableEq

/-- Opaque transport payload: deserialization is outside the core. -/
structure ScrobbleResponse where
  raw : String
deriving Repr, DecidableEq

/-- Opaque transport payload: deserialization is outside the core. -/
structure BatchScrobbleResponse where
  raw : String
deriving Repr, DecidableEq

/-- One network round trip performed by the collaborator, recorded so
that absence of network activity is expressible. -/
inductive NetCall where
  | auth_password (username password : Option String)
  | auth_token (token : Option String)
  | send_now_playing (params : Params)
  | send_scrobble (params : Params)
  | send_batch_scrobbles (params : Params)
deriving Repr, DecidableEq

/-! ### The error type of `scrobbler.rs` -/

/-- `Error` from `scrobbler.rs`: a message string. -/
structure Error where
  err_msg : String
deriving Repr, DecidableEq

def Error.new (err_msg : String) : Error :=
  ⟨err_msg⟩

/-! ### The LastFm client collaborator -/

/-- Modelled from the spec: the `LastFm` API client (the crate's
`client.rs` is not in the source listing; §2, §6).  It holds the API
credentials, the user credentials set before an authentication call,
and the session key once authenticated. -/
structure LastFm where
  api_key : String
  api_secret : String
  username : Option String := none
  password : Option String := none
  token : Option String := none
  session : Option String := none
deriving Repr, DecidableEq

def LastFm.new (api_key api_secret : String) : LastFm :=
  { api_key := api_key, api_secret := api_secret }

def LastFm.set_user_credentials (c : LastFm) (username password : String) : LastFm :=
  { c with username := some username, password := some password }

def LastFm.set_user_token (c : LastFm) (token : String) : LastFm :=
  { c with token := some token }

/-- Modelled from the spec: restoring a persisted session directly sets
the authenticated state, no network round trip, cannot fail (§4.2). -/
def LastFm.authenticate_with_session_key (c : LastFm) (session_key : String) : LastFm :=
  { c with session := some session_key }

def LastFm.session_key (c : LastFm) : Option String :=
  c.session

/-- Modelled from the spec: the password authentication round trip.
`net` is the transport's outcome for this call.  On success the client
stores the returned session key; on failure its state is unchanged
(§4.2). -/
def LastFm.authenticate_with_password (c : LastFm)
    (net : Except String SessionResponse) :
    Except String SessionResponse × LastFm × List NetCall :=
  match net with
  | .ok r => (.ok r, { c with session := some r.key },
      [NetCall.auth_password c.username c.password])
  | .error e => (.error e, c, [NetCall.auth_password c.username c.password])

/-- Modelled from the spec: the token authentication round trip, same
contract as password authentication (§4.2). -/
def LastFm.authenticate_with_token (c : LastFm)
    (net : Except String SessionResponse) :
    Except String SessionResponse × LastFm × List NetCall :=
  match net with
  | .ok r => (.ok r, { c with session := some r.key },
      [NetCall.auth_token c.token])
  | .error e => (.error e, c, [NetCall.auth_token c.token])

/-- Modelled from the spec: forwarding a now-playing parameter map to
the transport (§6). -/
def LastFm.send_now_playing (c : LastFm) (params : Params)
    (net : Except String NowPlayingResponse) :
    Except String NowPlayingResponse × List NetCall :=
  (net, [NetCall.send_now_playing params])

/-- Modelled from the spec: forwarding a scrobble parameter map to the
transport (§6). -/
def LastFm.send_scrobble (c : LastFm) (params : Params)
    (net : Except String ScrobbleResponse) :
    Except String ScrobbleResponse × List NetCall :=
  (net, [NetCall.send_scrobble params])

/-- Modelled from the spec: forwarding a merged batch parameter map to
the transport (§6). -/
def LastFm.send_batch_scrobbles (c : LastFm) (params : Params)
    (net : Except String BatchScrobbleResponse) :
    Except String BatchScrobbleResponse × List NetCall :=
  (net, [NetCall.send_batch_scrobbles params])

/-! ### The Scrobbler

Each operation takes its external inputs (clock reads, the transport's
outcome) as oracle arguments and returns, besides its Rust result, the
updated state where the Rust method takes `&mut self` and the list of
network calls performed. -/

structure Scrobbler where
  client : LastFm
deriving Repr, DecidableEq

def Scrobbler.new (api_key api_secret : String) : Scrobbler :=
  { client := LastFm.new api_key api_secret }

def Scrobbler.authenticate_with_password (s : Scrobbler)
    (username password : String) (net : Except String SessionResponse) :
    Except Error SessionResponse × Scrobbler × List NetCall :=
  let c := s.client.set_user_credentials username password
  match c.authenticate_with_password net with
  | (.ok r, c2, calls) => (.ok r, { s with client := c2 }, calls)
  | (.error e, c2, calls) => (.error (Error.new e), { s with client := c2 }, calls)

def Scrobbler.authenticate_with_token (s : Scrobbler)
    (token : String) (net : Except String SessionResponse) :
    Except Error SessionResponse × Scrobbler × List NetCall :=
  let c := s.client.set_user_token token
  match c.authenticate_with_token net with
  | (.ok r, c2, calls) => (.ok r, { s with client := c2 }, calls)
  | (.error e, c2, calls) => (.error (Error.new e), { s with client := c2 }, calls)

def Scrobbler.authenticate_with_session_key (s : Scrobbler)
    (session_key : String) : Scrobbler × List NetCall :=
  ({ s with client := s.client.authenticate_with_session_key session_key }, [])

/-- `session_key` borrows the scrobbler immutably; the returned state is
the unchanged input, making absence of side effects a statement. -/
def Scrobbler.session_key (s : Scrobbler) : Option String × Scrobbler :=
  (s.client.session_key, s)

def Scrobbler.now_playing (s : Scrobbler) (scrobble : Scrobble)
    (net : Except String NowPlayingResponse) :
    Except Error NowPlayingResponse × List NetCall :=
  let params := scrobble.as_map
  match s.client.send_now_playing params net with
  | (.ok r, calls) => (.ok r, calls)
  | (.error e, calls) => (.error (Error.new e), calls)

/-- The parameter map a record is submitted with: its `as_map`
serialization after `entry("timestamp").or_insert_with` defaulting with
the clock value `current_time`. -/
def recordParams (current_time : Nat) (s : Scrobble) : Params :=
  s.as_map.entryOrInsert "timestamp" (Nat.repr current_time)

/-- `Scrobbler::scrobble`.  `clock` is the outcome of
`UNIX_EPOCH.elapsed()`, already in whole seconds; on failure it carries
the `SystemTimeError` message.  The clock is read before the
`entry("timestamp").or_insert_with` defaulting, exactly as in the
source. -/
def Scrobbler.scrobble (s : Scrobbler) (scrobble : Scrobble)
    (clock : Except String Nat) (net : Except String ScrobbleResponse) :
    Except Error ScrobbleResponse × List NetCall :=
  match clock with
  | .error e => (.error (Error.new e), [])
  | .ok current_time =>
    let params := recordParams current_time scrobble
    match s.client.send_scrobble params net with
    | (.ok r, calls) => (.ok r, calls)
    | (.error e, calls) => (.error (Error.new e), calls)

/-- The body of the `for (i, scrobble) in batch.iter().enumerate()` loop
of `Scrobbler::scrobble_batch`: one clock read per record, timestamp
defaulting on the record's own map, then every pair re-keyed as
`name[i]` and inserted into the accumulated flat map. -/
def batchLoop (clock : Nat → Except String Nat) :
    Nat → Params → List Scrobble → Except String Params
  | _, params, [] => .ok params
  | i, params, scrobble :: rest =>
    match clock i with
    | .error e => .error e
    | .ok current_time =>
      let scrobble_params := recordParams current_time scrobble
      batchLoop clock (i + 1)
        (scrobble_params.foldl
          (fun m p => m.insert (p.1 ++ "[" ++ Nat.repr i ++ "]") p.2) params)
        rest

def Scrobbler.scrobble_batch (s : Scrobbler) (batch : ScrobbleBatch)
    (clock : Nat → Except String Nat)
    (net : Except String BatchScrobbleResponse) :
    Except Error BatchScrobbleResponse × List NetCall :=
  let batch_count := batch.length
  if batch_count > 50 then
    (.error (Error.new "Scrobble batch too large (must be 50 or fewer scrobbles)"), [])
  else if batch_count == 0 then
    (.error (Error.new "Scrobble batch is empty"), [])
  else
    match batchLoop clock 0 [] batch with
    | .error e => (.error (Error.new e), [])
    | .ok params =>
      match s.client.send_batch_scrobbles params net with
      | (.ok r, calls) => (.ok r, calls)
      | (.error e, calls) => (.error (Error.new e), calls)

/-! ### Lemmas about parameter maps and the record serialization -/

theorem hasKey_append (m1 m2 : Params) (k : String) :
    (m1 ++ m2).hasKey k = (m1.hasKey k || m2.hasKey k) := by
  simp [Params.hasKey, List.any_append]

theorem find_append (m1 m2 : Params) (k : String) :
    (m1 ++ m2).find k = (m1.find k).or (m2.find k) := by
  simp only [Params.find, List.find?_append]
  cases List.find? (fun p => p.1 == k) m1 <;> simp

theorem hasKey_nil (k : String) : Params.hasKey [] k = false :=
  rfl

theorem hasKey_cons (p : String × String) (m : Params) (k : String) :
    Params.hasKey (p :: m) k = (p.1 == k || m.hasKey k) := by
  simp [Params.hasKey]

theorem find_nil (k : String) : Params.find [] k = none :=
  rfl

theorem find_cons (p : String × String) (m : Params) (k : String) :
    Params.find (p :: m) k = if p.1 == k then some p.2 else m.find k := by
  cases h : (p.1 == k) <;> simp [Params.find, List.find?, h]

theorem hasKey_optEntry (k k' : String) (v : Option String) :
    (optEntry k v).hasKey k' = (v.isSome && (k == k')) := by
  cases v <;> simp [optEntry, Params.hasKey]

theorem find_optEntry (k k' : String) (v : Option String) :
    (optEntry k v).find k' = if k == k' then v else none := by
  cases v <;> cases h : (k == k') <;> simp [optEntry, Params.find, List.find?, h]

theorem as_map_hasKey_timestamp (s : Scrobble) :
    s.as_map.hasKey "timestamp" = s.timestamp.isSome := by
  cases h : s.timestamp <;>
    simp [Scrobble.as_map, hasKey_append, hasKey_cons, hasKey_nil, hasKey_optEntry, h]

theorem as_map_find_timestamp (s : Scrobble) :
    s.as_map.find "timestamp" = s.timestamp.map Nat.repr := by
  cases h : s.timestamp <;>
    simp [Scrobble.as_map, find_append, find_cons, find_nil, find_optEntry, h]

theorem recordParams_of_isSome (tv : Nat) (s : Scrobble)
    (h : s.timestamp.isSome = true) : recordParams tv s = s.as_map := by
  simp [recordParams, Params.entryOrInsert, as_map_hasKey_timestamp, h]

theorem recordParams_of_none (tv : Nat) (s : Scrobble)
    (h : s.timestamp = none) :
    recordParams tv s = s.as_map ++ [("timestamp", Nat.repr tv)] := by
  simp [recordParams, Params.entryOrInsert, as_map_hasKey_timestamp, h]

theorem find_recordParams_timestamp (tv : Nat) (s : Scrobble) :
    (recordParams tv s).find "timestamp" =
      some (match s.timestamp with
            | some ts => Nat.repr ts
            | none => Nat.repr tv) := by
  cases h : s.timestamp with
  | some ts =>
    rw [recordParams_of_isSome tv s (by simp [h])]
    simp [as_map_find_timestamp, h]
  | none =>
    rw [recordParams_of_none tv s h]
    simp [find_append, as_map_find_timestamp, h, find_cons, find_nil]

theorem find_entryOrInsert_ne (m : Params) (k v k' : String) (h : k' ≠ k) :
    (m.entryOrInsert k v).find k' = m.find k' := by
  unfold Params.entryOrInsert
  by_cases hk : m.hasKey k
  · simp [hk]
  · have hne : (k == k') = false := by
      simp [Ne.symm h]
    simp [hk, find_append, find_cons, find_nil, hne]

/-! ### Behaviour of the batch loop under clock failures -/

theorem batchLoop_error_of_clock (clock : Nat → Except String Nat) :
    ∀ (batch : List Scrobble) (i0 : Nat) (m : Params) (j : Nat) (e : String),
      j < batch.length → clock (i0 + j) = .error e →
      (∀ i, i < j → ∃ tv, clock (i0 + i) = .ok tv) →
      batchLoop clock i0 m batch = .error e := by
  intro batch
  induction batch with
  | nil => intro i0 m j e hj; simp at hj
  | cons s rest ih =>
    intro i0 m j e hj hfail hpre
    cases j with
    | zero =>
      simp only [Nat.add_zero] at hfail
      simp only [batchLoop, hfail]
    | succ j' =>
      obtain ⟨tv, htv⟩ := hpre 0 (Nat.succ_pos j')
      simp only [Nat.add_zero] at htv
      simp only [batchLoop, htv]
      apply ih (i0 + 1) _ j' e
      · simpa using Nat.lt_of_succ_lt_succ hj
      · have harith : i0 + 1 + j' = i0 + (j' + 1) := by omega
        rw [harith]; exact hfail
      · intro i hi
        have := hpre (i + 1) (Nat.succ_lt_succ hi)
        have harith : i0 + (i + 1) = i0 + 1 + i := by omega
        rwa [harith] at this

theorem batchLoop_ok_of_clock (clock : Nat → Except String Nat) :
    ∀ (batch : List Scrobble) (i0 : Nat) (m : Params),
      (∀ j, j < batch.length → ∃ tv, clock (i0 + j) = .ok tv) →
      ∃ p, batchLoop clock i0 m batch = .ok p := by
  intro batch
  induction batch with
  | nil => intro i0 m _; exact ⟨m, rfl⟩
  | cons s rest ih =>
    intro i0 m hclock
    obtain ⟨tv, htv⟩ := hclock 0 (Nat.succ_pos rest.length)
    simp only [Nat.add_zero] at htv
    simp only [batchLoop, htv]
    apply ih (i0 + 1)
    intro j hj
    have := hclock (j + 1) (Nat.succ_lt_succ hj)
    have harith : i0 + (j + 1) = i0 + 1 + j := by omega
    rwa [harith] at this

/-! ### Claims about the single-record operations -/

/-- C5: `now_playing(scrobble)` forwards exactly the record's `as_map`
parameter set to the now-playing endpoint, unmodified; in particular the
forwarded map has a `timestamp` entry exactly when the record itself
carries one, so none is ever injected. -/
theorem now_playing_forwards_unmodified (sc : Scrobbler) (s : Scrobble)
    (net : Except String NowPlayingResponse) :
    (sc.now_playing s net).2 = [NetCall.send_now_playing s.as_map] ∧
    s.as_map.hasKey "timestamp" = s.timestamp.isSome :=
  ⟨by cases net <;> rfl, as_map_hasKey_timestamp s⟩

/-- C3: `scrobble(scrobble)` forwards the record's `as_map` parameter
set in one network call; an explicitly set timestamp is forwarded
unchanged (the map itself is untouched), and a missing one is filled
with the clock's Unix-seconds reading rendered as decimal text, leaving
every other entry unchanged. -/
theorem scrobble_timestamp_defaulting (sc : Scrobbler) (s : Scrobble)
    (t : Nat) (net : Except String ScrobbleResponse) :
    (sc.scrobble s (.ok t) net).2 = [NetCall.send_scrobble (recordParams t s)] ∧
    (∀ ts, s.timestamp = some ts →
      recordParams t s = s.as_map ∧
      (recordParams t s).find "timestamp" = some (Nat.repr ts)) ∧
    (s.timestamp = none →
      (recordParams t s).find "timestamp" = some (Nat.repr t)) ∧
    (∀ k, k ≠ "timestamp" → (recordParams t s).find k = s.as_map.find k) := by
  refine ⟨by cases net <;> rfl, ?_, ?_, ?_⟩
  · intro ts hts
    have heq : recordParams t s = s.as_map :=
      recordParams_of_isSome t s (by simp [hts])
    refine ⟨heq, ?_⟩
    rw [heq, as_map_find_timestamp, hts]
    rfl
  · intro hts
    rw [find_recordParams_timestamp, hts]
  · intro k hk
    exact find_entryOrInsert_ne s.as_map "timestamp" (Nat.repr t) k hk

/-- Closed instance of C3 at a record with an explicit timestamp and at
one without. -/
theorem scrobble_timestamp_defaulting_witness :
    ((Scrobbler.new "k" "s").scrobble ⟨"A", "T", "L", none, none, none, some 1337, none⟩
        (.ok 42) (.ok ⟨"r"⟩)).2
      = [NetCall.send_scrobble (recordParams 42 ⟨"A", "T", "L", none, none, none, some 1337, none⟩)] ∧
    (recordParams 42 ⟨"A", "T", "L", none, none, none, some 1337, none⟩).find "timestamp"
      = some (Nat.repr 1337) ∧
    (recordParams 42 ⟨"A", "T", "L", none, none, none, none, none⟩).find "timestamp"
      = some (Nat.repr 42) :=
  ⟨(scrobble_timestamp_defaulting (Scrobbler.new "k" "s")
      ⟨"A", "T", "L", none, none, none, some 1337, none⟩ 42 (.ok ⟨"r"⟩)).1,
   ((scrobble_timestamp_defaulting (Scrobbler.new "k" "s")
      ⟨"A", "T", "L", none, none, none, some 1337, none⟩ 42 (.ok ⟨"r"⟩)).2.1 1337 rfl).2,
   (scrobble_timestamp_defaulting (Scrobbler.new "k" "s")
      ⟨"A", "T", "L", none, none, none, none, none⟩ 42 (.ok ⟨"r"⟩)).2.2.1 rfl⟩

/-! ### Claims about authentication and session state -/

/-- C6: `authenticate_with_session_key` cannot fail (it returns no
result to inspect), performs no network call, and afterwards
`session_key()` returns exactly the given key. -/
theorem authenticate_with_session_key_direct (sc : Scrobbler) (k : String) :
    ((sc.authenticate_with_session_key k).1.session_key).1 = some k ∧
    (sc.authenticate_with_session_key k).2 = [] :=
  ⟨rfl, rfl⟩

/-- C7: `session_key()` returns the stored key in the authenticated
state, `none` in the unauthenticated state (in particular on a freshly
constructed Scrobbler), and returns the scrobbler state unchanged. -/
theorem session_key_reflects_session_state (a b : String) (sc : Scrobbler) :
    ((Scrobbler.new a b).session_key).1 = none ∧
    (∀ k, sc.client.session = some k → (sc.session_key).1 = some k) ∧
    (sc.client.session = none → (sc.session_key).1 = none) ∧
    (sc.session_key).2 = sc := by
  refine ⟨rfl, ?_, ?_, rfl⟩
  · intro k hk
    simp [Scrobbler.session_key, LastFm.session_key, hk]
  · intro hk
    simp [Scrobbler.session_key, LastFm.session_key, hk]

/-- Closed instance of C7: an authenticated scrobbler returns its key,
an unauthenticated one returns `none`. -/
theorem session_key_reflects_session_state_witness :
    ((⟨⟨"a", "b", none, none, none, some "abc"⟩⟩ : Scrobbler).session_key).1 = some "abc" ∧
    ((Scrobbler.new "a" "b").session_key).1 = none :=
  ⟨(session_key_reflects_session_state "a" "b"
      ⟨⟨"a", "b", none, none, none, some "abc"⟩⟩).2.1 "abc" rfl,
   (session_key_reflects_session_state "a" "b" (Scrobbler.new "a" "b")).1⟩

/-- C8: a failed `authenticate_with_password` or
`authenticate_with_token` call propagates the transport's error and
leaves the session state exactly as it was before the call. -/
theorem failed_auth_preserves_session (sc : Scrobbler)
    (u p tok e : String) :
    (sc.authenticate_with_password u p (.error e)).1 = .error (Error.new e) ∧
    (((sc.authenticate_with_password u p (.error e)).2.1.session_key).1
      = (sc.session_key).1) ∧
    (sc.authenticate_with_token tok (.error e)).1 = .error (Error.new e) ∧
    (((sc.authenticate_with_token tok (.error e)).2.1.session_key).1
      = (sc.session_key).1) :=
  ⟨rfl, rfl, rfl, rfl⟩

/-! ### Claims about clock failures -/

/-- C9: a failed clock read surfaces synchronously as an error from
`scrobble` and from `scrobble_batch`, with no network call made; in the
batch case the first failing per-record read aborts the whole request. -/
theorem clock_error_synchronous (sc : Scrobbler) (s : Scrobble) (e : String)
    (net : Except String ScrobbleResponse)
    (batch : ScrobbleBatch) (clock : Nat → Except String Nat)
    (bnet : Except String BatchScrobbleResponse) (j : Nat)
    (hj : j < batch.length) (h50 : batch.length ≤ 50)
    (hfail : clock j = .error e)
    (hpre : ∀ i, i < j → ∃ tv, clock i = .ok tv) :
    sc.scrobble s (.error e) net = (.error (Error.new e), []) ∧
    sc.scrobble_batch batch clock bnet = (.error (Error.new e), []) := by
  refine ⟨rfl, ?_⟩
  have hloop : batchLoop clock 0 [] batch = .error e := by
    apply batchLoop_error_of_clock clock batch 0 [] j e hj
    · simpa using hfail
    · simpa using hpre
  have h1 : ¬ batch.length > 50 := by omega
  have h2 : (batch.length == 0) = false := by
    have : batch.length ≠ 0 := by omega
    simpa using this
  simp [Scrobbler.scrobble_batch, h1, h2, hloop]

/-- Closed instance of C9: a one-record batch and a single scrobble
against a clock that fails. -/
theorem clock_error_synchronous_witness :
    (Scrobbler.new "k" "s").scrobble ⟨"A", "T", "L", none, none, none, none, none⟩
        (.error "clock failure") (.ok ⟨"r"⟩)
      = (.error (Error.new "clock failure"), []) ∧
    (Scrobbler.new "k" "s").scrobble_batch [⟨"A", "T", "L", none, none, none, none, none⟩]
        (fun _ => .error "clock failure") (.ok ⟨"r"⟩)
      = (.error (Error.new "clock failure"), []) :=
  clock_error_synchronous (Scrobbler.new "k" "s")
    ⟨"A", "T", "L", none, none, none, none, none⟩ "clock failure" (.ok ⟨"r"⟩)
    [⟨"A", "T", "L", none, none, none, none, none⟩] (fun _ => .error "clock failure")
    (.ok ⟨"r"⟩) 0 (by decide) (by decide) rfl
    (fun i hi => absurd hi (Nat.not_lt_zero i))

/-- C10: the clock is read before the presence of a `timestamp` entry is
checked, so a clock failure errors the call even when the record (or, in
a batch, every record) carries an explicit timestamp, and one failed
read aborts the whole batch with no network call. -/
theorem clock_read_unconditional (sc : Scrobbler) (s : Scrobble)
    (ts : Nat) (e : String) (net : Except String ScrobbleResponse)
    (batch : ScrobbleBatch) (clock : Nat → Except String Nat)
    (bnet : Except String BatchScrobbleResponse) (j : Nat)
    (hts : s.timestamp = some ts)
    (hall : ∀ r ∈ batch, r.timestamp.isSome = true)
    (hj : j < batch.length) (h50 : batch.length ≤ 50)
    (hfail : clock j = .error e)
    (hpre : ∀ i, i < j → ∃ tv, clock i = .ok tv) :
    sc.scrobble s (.error e) net = (.error (Error.new e), []) ∧
    sc.scrobble_batch batch clock bnet = (.error (Error.new e), []) := by
  refine ⟨rfl, ?_⟩
  have hloop : batchLoop clock 0 [] batch = .error e := by
    apply batchLoop_error_of_clock clock batch 0 [] j e hj
    · simpa using hfail
    · simpa using hpre
  have h1 : ¬ batch.length > 50 := by omega
  have h2 : (batch.length == 0) = false := by
    have : batch.length ≠ 0 := by omega
    simpa using this
  simp [Scrobbler.scrobble_batch, h1, h2, hloop]

/-- Closed instance of C10: every record carries an explicit timestamp,
yet the failed clock read still errors both calls. -/
theorem clock_read_unconditional_witness :
    (Scrobbler.new "k" "s").scrobble ⟨"A", "T", "L", none, none, none, some 5, none⟩
        (.error "clock failure") (.ok ⟨"r"⟩)
      = (.error (Error.new "clock failure"), []) ∧
    (Scrobbler.new "k" "s").scrobble_batch [⟨"A", "T", "L", none, none, none, some 5, none⟩]
        (fun _ => .error "clock failure") (.ok ⟨"r"⟩)
      = (.error (Error.new "clock failure"), []) :=
  clock_read_unconditional (Scrobbler.new "k" "s")
    ⟨"A", "T", "L", none, none, none, some 5, none⟩ 5 "clock failure" (.ok ⟨"r"⟩)
    [⟨"A", "T", "L", none, none, none, some 5, none⟩] (fun _ => .error "clock failure")
    (.ok ⟨"r"⟩) 0 rfl (by decide) (by decide) (by decide) rfl
    (fun i hi => absurd hi (Nat.not_lt_zero i))

/-! ### The positional batch encoding

`format!("{}[{}]", key, i)` re-keys a record's parameters with the
record's batch index.  The receiving API reconstructs the grouping from
the numeric suffix, so the development needs that re-keying to be
injective: parameter names contain no `[`, hence the first `[` of a
merged key separates the name from the index. -/

def rekeyPair (i : Nat) (p : String × String) : String × String :=
  (p.1 ++ "[" ++ Nat.repr i ++ "]", p.2)

/-- The spec's description of the merged batch parameter set: for each
record at index `i`, in sequence order, every pair of its
timestamp-defaulted map re-keyed as `name[i]`, all concatenated into one
flat map. -/
def specMergedParams (t : Nat → Nat) : Nat → List Scrobble → Params
  | _, [] => []
  | i, s :: rest =>
    (recordParams (t i) s).map (rekeyPair i) ++ specMergedParams t (i + 1) rest

theorem append_bracket_split : ∀ (l1 l2 m1 m2 : List Char),
    '[' ∉ l1 → '[' ∉ l2 → l1 ++ '[' :: m1 = l2 ++ '[' :: m2 → l1 = l2 ∧ m1 = m2 := by
  intro l1
  induction l1 with
  | nil =>
    intro l2 m1 m2 _ h2 heq
    cases l2 with
    | nil => simpa using heq
    | cons c l2' =>
      simp only [List.nil_append, List.cons_append, List.cons.injEq] at heq
      simp only [List.mem_cons, not_or] at h2
      exact absurd heq.1 h2.1
  | cons c l1' ih =>
    intro l2 m1 m2 h1 h2 heq
    simp only [List.mem_cons, not_or] at h1
    cases l2 with
    | nil =>
      simp only [List.cons_append, List.nil_append, List.cons.injEq] at heq
      exact absurd heq.1.symm h1.1
    | cons d l2' =>
      simp only [List.cons_append, List.cons.injEq] at heq
      simp only [List.mem_cons, not_or] at h2
      obtain ⟨hl, hm⟩ := ih l2' m1 m2 h1.2 h2.2 heq.2
      exact ⟨by rw [heq.1, hl], hm⟩

theorem string_append_right_cancel {a b c : String} (h : a ++ c = b ++ c) :
    a = b := by
  apply String.ext
  have hd := congrArg String.data h
  simp only [String.data_append] at hd
  exact List.append_cancel_right hd

/-- Decimal rendering is injective on the indices a batch can use
(batch indices are below 50). -/
theorem repr_inj_lt (i : Nat) (hi : i < 50) (j : Nat) (hj : j < 50)
    (h : Nat.repr i = Nat.repr j) : i = j := by
  revert h; revert hj; revert j; revert hi; revert i
  decide

theorem data_bracket_key (k s : String) :
    (k ++ "[" ++ s ++ "]").data = k.data ++ ('[' :: (s.data ++ [']'])) := by
  have h1 : ("[" : String).data = ['['] := rfl
  have h2 : ("]" : String).data = [']'] := rfl
  simp [String.data_append, h1, h2]

theorem batch_key_inj {k1 k2 : String} {i1 i2 : Nat}
    (h1 : '[' ∉ k1.data) (h2 : '[' ∉ k2.data) (hi1 : i1 < 50) (hi2 : i2 < 50)
    (h : k1 ++ "[" ++ Nat.repr i1 ++ "]" = k2 ++ "[" ++ Nat.repr i2 ++ "]") :
    k1 = k2 ∧ i1 = i2 := by
  have hd := congrArg String.data h
  rw [data_bracket_key, data_bracket_key] at hd
  obtain ⟨hk, hm⟩ := append_bracket_split _ _ _ _ h1 h2 hd
  refine ⟨String.ext hk, ?_⟩
  exact repr_inj_lt i1 hi1 i2 hi2 (String.ext (List.append_cancel_right hm))

/-- The keys a record is ever submitted with are the fixed parameter
names, each occurring at most once and none containing `[`. -/
theorem recordParams_keys_facts (tv : Nat) (s : Scrobble) :
    (recordParams tv s).keys.Nodup ∧
    ∀ key ∈ (recordParams tv s).keys, '[' ∉ key.data := by
  rcases s with ⟨a, tr, al, aa, tn, du, ts, mb⟩
  rcases aa with _ | aa <;> rcases tn with _ | tn <;> rcases du with _ | du <;>
    rcases ts with _ | ts <;> rcases mb with _ | mb <;>
    · simp only [recordParams, Scrobble.as_map, optEntry, Params.entryOrInsert,
        Params.hasKey, Params.keys, Option.map_none', Option.map_some',
        List.any_cons, List.any_append, List.any_nil, List.append_nil,
        List.nil_append, List.cons_append, List.map_cons, List.map_append,
        List.map_nil]
      simp

theorem hasKey_eq_false_iff (m : Params) (k : String) :
    m.hasKey k = false ↔ k ∉ m.keys := by
  rw [Params.hasKey, List.any_eq_false]
  simp [Params.keys]
  aesop

theorem find_eq_none_iff (m : Params) (k : String) :
    m.find k = none ↔ ∀ p ∈ m, p.1 ≠ k := by
  simp [Params.find, List.find?_eq_none]

theorem keys_append (m1 m2 : Params) :
    Params.keys (m1 ++ m2) = m1.keys ++ m2.keys := by
  simp [Params.keys]

theorem insert_of_fresh (m : Params) (k v : String) (h : k ∉ m.keys) :
    m.insert k v = m ++ [(k, v)] := by
  have hf : m.hasKey k = false := (hasKey_eq_false_iff m k).mpr h
  simp [Params.insert, hf]

theorem beq_append_right (a b c : String) : (a ++ c == b ++ c) = (a == b) := by
  cases h : (a == b)
  · apply beq_eq_false_iff_ne.mpr
    intro hcontra
    exact (beq_eq_false_iff_ne.mp h) (string_append_right_cancel hcontra)
  · rw [beq_iff_eq.mp h]
    simp

/-- Inserting freshly re-keyed pairs into a map that contains none of
them appends them in order: the `HashMap::insert` replacement branch is
never taken during batch merging. -/
theorem foldl_insert_fresh (i : Nat) :
    ∀ (kvs : List (String × String)) (m : Params),
      ((kvs.map fun p => p.1 ++ "[" ++ Nat.repr i ++ "]").Nodup) →
      (∀ p ∈ kvs, (p.1 ++ "[" ++ Nat.repr i ++ "]") ∉ m.keys) →
      kvs.foldl (fun acc p => acc.insert (p.1 ++ "[" ++ Nat.repr i ++ "]") p.2) m
        = m ++ kvs.map (rekeyPair i) := by
  intro kvs
  induction kvs with
  | nil => intro m _ _; simp
  | cons q rest ih =>
    intro m hnodup hfresh
    simp only [List.foldl_cons, List.map_cons]
    rw [insert_of_fresh m _ q.2 (hfresh q (List.mem_cons_self q rest))]
    rw [ih (m ++ [(q.1 ++ "[" ++ Nat.repr i ++ "]", q.2)] : Params) ?hn ?hf]
    · simp [rekeyPair]
    case hn => exact (List.nodup_cons.mp (by simpa using hnodup)).2
    case hf =>
      intro p hp hmem
      rw [keys_append] at hmem
      simp only [List.mem_append] at hmem
      cases hmem with
      | inl hin => exact hfresh p (List.mem_cons_of_mem q hp) hin
      | inr hin =>
        have hq : p.1 ++ "[" ++ Nat.repr i ++ "]" = q.1 ++ "[" ++ Nat.repr i ++ "]" := by
          simpa [Params.keys] using hin
        have hnd : (q.1 ++ "[" ++ Nat.repr i ++ "]")
            ∉ rest.map (fun p => p.1 ++ "[" ++ Nat.repr i ++ "]") :=
          (List.nodup_cons.mp (by simpa using hnodup)).1
        exact hnd (hq ▸ List.mem_map_of_mem _ hp)

/-- The batch loop, started on a map whose keys cannot collide with any
key it will generate, appends exactly the indexed re-keyed record maps
in iteration order. -/
theorem batchLoop_eq_spec (clock : Nat → Except String Nat) (t : Nat → Nat) :
    ∀ (batch : List Scrobble) (i0 : Nat) (m : Params),
      (∀ j, j < batch.length → clock (i0 + j) = .ok (t (i0 + j))) →
      i0 + batch.length ≤ 50 →
      (∀ key, key ∈ m.keys → ∀ k i, '[' ∉ k.data → i0 ≤ i → i < 50 →
          key ≠ k ++ "[" ++ Nat.repr i ++ "]") →
      batchLoop clock i0 m batch = .ok (m ++ specMergedParams t i0 batch) := by
  intro batch
  induction batch with
  | nil =>
    intro i0 m _ _ _
    simp [batchLoop, specMergedParams]
  | cons s rest ih =>
    intro i0 m hclock hle hinv
    have h0 : clock i0 = .ok (t i0) := by simpa using hclock 0 (Nat.succ_pos _)
    have hi050 : i0 < 50 := by
      simp only [List.length_cons] at hle; omega
    obtain ⟨hnodup, hnob⟩ := recordParams_keys_facts (t i0) s
    have hmn : ((recordParams (t i0) s).map
        (fun p => p.1 ++ "[" ++ Nat.repr i0 ++ "]")).Nodup := by
      have hcomp : (recordParams (t i0) s).map (fun p => p.1 ++ "[" ++ Nat.repr i0 ++ "]")
          = (recordParams (t i0) s).keys.map (fun k => k ++ "[" ++ Nat.repr i0 ++ "]") := by
        simp [Params.keys, List.map_map, Function.comp]
      rw [hcomp]
      exact hnodup.map (fun x y hxy => string_append_right_cancel
        (string_append_right_cancel (string_append_right_cancel hxy)))
    have hfr : ∀ p ∈ recordParams (t i0) s,
        (p.1 ++ "[" ++ Nat.repr i0 ++ "]") ∉ m.keys := by
      intro p hp hmem
      exact hinv _ hmem p.1 i0 (hnob p.1 (List.mem_map_of_mem Prod.fst hp))
        (le_refl i0) hi050 rfl
    simp only [batchLoop, h0]
    rw [foldl_insert_fresh i0 (recordParams (t i0) s) m hmn hfr]
    rw [ih (i0 + 1) (m ++ (recordParams (t i0) s).map (rekeyPair i0)) ?hc ?hl ?hi]
    · simp [specMergedParams, List.append_assoc]
    case hc =>
      intro j hj
      have hj1 := hclock (j + 1) (by simpa using Nat.succ_lt_succ hj)
      have harith : i0 + (j + 1) = i0 + 1 + j := by omega
      rwa [harith] at hj1
    case hl =>
      simp only [List.length_cons] at hle; omega
    case hi =>
      intro key hkey k i hk hi1 hi2
      rw [keys_append] at hkey
      simp only [List.mem_append] at hkey
      cases hkey with
      | inl hin => exact hinv key hin k i hk (by omega) hi2
      | inr hin =>
        have hex : ∃ q ∈ recordParams (t i0) s,
            (rekeyPair i0 q).1 = key := by
          simp only [Params.keys, List.map_map, List.mem_map, Function.comp] at hin
          obtain ⟨q, hq, hkey⟩ := hin
          exact ⟨q, hq, hkey⟩
        obtain ⟨q, hq, hkeq⟩ := hex
        intro hcontra
        rw [← hkeq] at hcontra
        have hcontra2 : q.1 ++ "[" ++ Nat.repr i0 ++ "]"
            = k ++ "[" ++ Nat.repr i ++ "]" := hcontra
        obtain ⟨_, hi0i⟩ := batch_key_inj
          (hnob q.1 (List.mem_map_of_mem Prod.fst hq)) hk hi050 hi2 hcontra2
        omega

theorem find_map_rekey (i : Nat) (k : String) (ps : Params) :
    Params.find (ps.map (rekeyPair i)) (k ++ "[" ++ Nat.repr i ++ "]") = ps.find k := by
  induction ps with
  | nil => rfl
  | cons q rest ih =>
    simp only [List.map_cons]
    rw [find_cons, find_cons]
    have hcond : ((rekeyPair i q).1 == k ++ "[" ++ Nat.repr i ++ "]") = (q.1 == k) := by
      simp only [rekeyPair]
      rw [beq_append_right, beq_append_right, beq_append_right]
    rw [hcond]
    cases hqk : (q.1 == k) <;> simp [hqk, ih, rekeyPair]

/-- In the merged batch map, the `timestamp[i]` entry is exactly record
`i`'s own timestamp entry after its per-record defaulting. -/
theorem specMergedParams_find_timestamp (t : Nat → Nat) :
    ∀ (batch : List Scrobble) (i0 j : Nat) (hj : j < batch.length),
      i0 + batch.length ≤ 50 →
      (specMergedParams t i0 batch).find ("timestamp" ++ "[" ++ Nat.repr (i0 + j) ++ "]")
        = (recordParams (t (i0 + j)) (batch.get ⟨j, hj⟩)).find "timestamp" := by
  intro batch
  induction batch with
  | nil => intro i0 j hj; simp at hj
  | cons s rest ih =>
    intro i0 j hj hle
    have hi050 : i0 < 50 := by
      simp only [List.length_cons] at hle; omega
    cases j with
    | zero =>
      simp only [Nat.add_zero, List.get, specMergedParams]
      rw [find_append, find_map_rekey]
      rw [find_recordParams_timestamp]
      simp [Option.or]
    | succ j' =>
      have hlt : i0 + (j' + 1) < 50 := by
        simp only [List.length_cons] at hle
        simp only [List.length_cons] at hj
        omega
      simp only [specMergedParams]
      rw [find_append]
      have hnone : Params.find ((recordParams (t i0) s).map (rekeyPair i0))
          ("timestamp" ++ "[" ++ Nat.repr (i0 + (j' + 1)) ++ "]") = none := by
        rw [find_eq_none_iff]
        intro p hp hcontra
        obtain ⟨q, hq, rfl⟩ := List.mem_map.mp hp
        obtain ⟨_, hnob⟩ := recordParams_keys_facts (t i0) s
        have hcontra2 : q.1 ++ "[" ++ Nat.repr i0 ++ "]"
            = "timestamp" ++ "[" ++ Nat.repr (i0 + (j' + 1)) ++ "]" := hcontra
        obtain ⟨_, hii⟩ := batch_key_inj
          (hnob q.1 (List.mem_map_of_mem Prod.fst hq)) (by decide) hi050 hlt hcontra2
        omega
      rw [hnone]
      simp only [Option.none_or]
      have harith : i0 + (j' + 1) = (i0 + 1) + j' := by omega
      rw [harith]
      have hget : (s :: rest).get ⟨j' + 1, hj⟩ = rest.get ⟨j', by simpa using hj⟩ := rfl
      rw [hget]
      apply ih (i0 + 1) j' (by simpa using hj)
      simp only [List.length_cons] at hle
      omega

/-! ### Claims about batch submission -/

/-- C1: `scrobble_batch` rejects a batch of more than 50 records with
the size error and an empty batch with the empty error, in both cases
before any network call; every batch of 1 to 50 records passes the size
validation and (given working clock reads) is forwarded to the
collaborator in a single network call. -/
theorem scrobble_batch_size_validation (sc : Scrobbler) (batch : ScrobbleBatch)
    (clock : Nat → Except String Nat) (net : Except String BatchScrobbleResponse) :
    (batch.length > 50 →
      sc.scrobble_batch batch clock net
        = (.error (Error.new "Scrobble batch too large (must be 50 or fewer scrobbles)"), [])) ∧
    (batch.length = 0 →
      sc.scrobble_batch batch clock net
        = (.error (Error.new "Scrobble batch is empty"), [])) ∧
    (1 ≤ batch.length → batch.length ≤ 50 →
      (∀ j, j < batch.length → ∃ tv, clock j = .ok tv) →
      ∃ p, batchLoop clock 0 [] batch = .ok p ∧
        sc.scrobble_batch batch clock net
          = ((match net with
              | .ok r => Except.ok r
              | .error e => Except.error (Error.new e)),
             [NetCall.send_batch_scrobbles p])) := by
  refine ⟨?_, ?_, ?_⟩
  · intro h
    simp [Scrobbler.scrobble_batch, h]
  · intro h
    simp [Scrobbler.scrobble_batch, h]
  · intro h1 h50 hclock
    obtain ⟨p, hp⟩ := batchLoop_ok_of_clock clock batch 0 [] (by simpa using hclock)
    refine ⟨p, hp, ?_⟩
    have hgt : ¬ batch.length > 50 := by omega
    have hne : (batch.length == 0) = false := by
      simp only [beq_eq_false_iff_ne]
      omega
    cases net with
    | ok r => simp [Scrobbler.scrobble_batch, LastFm.send_batch_scrobbles, hgt, hne, hp]
    | error e => simp [Scrobbler.scrobble_batch, LastFm.send_batch_scrobbles, hgt, hne, hp]

/-- Closed instance of C1: 51 records are rejected with the size error,
0 with the empty error, and exactly 50 are forwarded. -/
theorem scrobble_batch_size_validation_witness :
    (Scrobbler.new "k" "s").scrobble_batch
        (List.replicate 51 ⟨"A", "T", "L", none, none, none, none, none⟩)
        (fun _ => .ok 7) (.ok ⟨"r"⟩)
      = (.error (Error.new "Scrobble batch too large (must be 50 or fewer scrobbles)"), []) ∧
    (Scrobbler.new "k" "s").scrobble_batch [] (fun _ => .ok 7) (.ok ⟨"r"⟩)
      = (.error (Error.new "Scrobble batch is empty"), []) ∧
    ∃ p, batchLoop (fun _ => .ok 7) 0 []
        (List.replicate 50 ⟨"A", "T", "L", none, none, none, none, none⟩) = .ok p ∧
      (Scrobbler.new "k" "s").scrobble_batch
          (List.replicate 50 ⟨"A", "T", "L", none, none, none, none, none⟩)
          (fun _ => .ok 7) (.ok ⟨"r"⟩)
        = (.ok ⟨"r"⟩, [NetCall.send_batch_scrobbles p]) := by
  refine ⟨?_, ?_, ?_⟩
  · exact (scrobble_batch_size_validation (Scrobbler.new "k" "s")
      (List.replicate 51 ⟨"A", "T", "L", none, none, none, none, none⟩)
      (fun _ => .ok 7) (.ok ⟨"r"⟩)).1 (by simp)
  · exact (scrobble_batch_size_validation (Scrobbler.new "k" "s") []
      (fun _ => .ok 7) (.ok ⟨"r"⟩)).2.1 rfl
  · exact (scrobble_batch_size_validation (Scrobbler.new "k" "s")
      (List.replicate 50 ⟨"A", "T", "L", none, none, none, none, none⟩)
      (fun _ => .ok 7) (.ok ⟨"r"⟩)).2.2 (by simp) (by simp)
      (fun j _ => ⟨7, rfl⟩)

/-- C2: for a batch of 1 to 50 records with working clock reads, the
merged parameter set is exactly the concatenation, in iteration order,
of each record's timestamp-defaulted map re-keyed as `name[i]` with `i`
the record's 0-based index — no gaps, no reordering — and it is sent in
a single network call. -/
theorem scrobble_batch_positional_encoding (sc : Scrobbler)
    (batch : ScrobbleBatch) (clock : Nat → Except String Nat) (t : Nat → Nat)
    (net : Except String BatchScrobbleResponse)
    (h1 : 1 ≤ batch.length) (h50 : batch.length ≤ 50)
    (hclock : ∀ i, i < batch.length → clock i = .ok (t i)) :
    batchLoop clock 0 [] batch = .ok (specMergedParams t 0 batch) ∧
    sc.scrobble_batch batch clock net
      = ((match net with
          | .ok r => Except.ok r
          | .error e => Except.error (Error.new e)),
         [NetCall.send_batch_scrobbles (specMergedParams t 0 batch)]) := by
  have hloop : batchLoop clock 0 [] batch = .ok (specMergedParams t 0 batch) := by
    have := batchLoop_eq_spec clock t batch 0 []
      (by intro j hj; simpa using hclock j hj) (by simpa using h50)
      (by intro key hkey; simp [Params.keys] at hkey)
    simpa using this
  refine ⟨hloop, ?_⟩
  have hgt : ¬ batch.length > 50 := by omega
  have hne : (batch.length == 0) = false := by
    simp only [beq_eq_false_iff_ne]
    omega
  cases net with
  | ok r => simp [Scrobbler.scrobble_batch, LastFm.send_batch_scrobbles, hgt, hne, hloop]
  | error e => simp [Scrobbler.scrobble_batch, LastFm.send_batch_scrobbles, hgt, hne, hloop]

/-- Closed instance of C2: a 3-record batch merges to the indexed
concatenation of its records' maps and is sent in one call. -/
theorem scrobble_batch_positional_encoding_witness :
    batchLoop (fun i => .ok (1000 + i)) 0 []
        [⟨"A0", "T0", "L0", none, none, none, none, none⟩,
         ⟨"A1", "T1", "L1", none, none, none, none, none⟩,
         ⟨"A2", "T2", "L2", none, none, none, none, none⟩]
      = .ok (specMergedParams (fun i => 1000 + i) 0
          [⟨"A0", "T0", "L0", none, none, none, none, none⟩,
           ⟨"A1", "T1", "L1", none, none, none, none, none⟩,
           ⟨"A2", "T2", "L2", none, none, none, none, none⟩]) ∧
    (Scrobbler.new "k" "s").scrobble_batch
        [⟨"A0", "T0", "L0", none, none, none, none, none⟩,
         ⟨"A1", "T1", "L1", none, none, none, none, none⟩,
         ⟨"A2", "T2", "L2", none, none, none, none, none⟩]
        (fun i => .ok (1000 + i)) (.ok ⟨"r"⟩)
      = (.ok ⟨"r"⟩, [NetCall.send_batch_scrobbles (specMergedParams (fun i => 1000 + i) 0
          [⟨"A0", "T0", "L0", none, none, none, none, none⟩,
           ⟨"A1", "T1", "L1", none, none, none, none, none⟩,
           ⟨"A2", "T2", "L2", none, none, none, none, none⟩])]) :=
  scrobble_batch_positional_encoding (Scrobbler.new "k" "s")
    [⟨"A0", "T0", "L0", none, none, none, none, none⟩,
     ⟨"A1", "T1", "L1", none, none, none, none, none⟩,
     ⟨"A2", "T2", "L2", none, none, none, none, none⟩]
    (fun i => .ok (1000 + i)) (fun i => 1000 + i) (.ok ⟨"r"⟩)
    (by simp) (by simp) (fun i _ => rfl)

/-- C4: timestamp defaulting in a batch is per record with that record's
own clock read: in the merged map, `timestamp[j]` holds record `j`'s
explicit timestamp when it has one and the `j`-th clock reading
otherwise. -/
theorem scrobble_batch_per_record_timestamp (batch : ScrobbleBatch)
    (clock : Nat → Except String Nat) (t : Nat → Nat)
    (h50 : batch.length ≤ 50)
    (hclock : ∀ i, i < batch.length → clock i = .ok (t i))
    (j : Nat) (hj : j < batch.length) :
    ∃ m, batchLoop clock 0 [] batch = .ok m ∧
      m.find ("timestamp" ++ "[" ++ Nat.repr j ++ "]")
        = some (match (batch.get ⟨j, hj⟩).timestamp with
                | some ts => Nat.repr ts
                | none => Nat.repr (t j)) := by
  have hloop : batchLoop clock 0 [] batch = .ok (specMergedParams t 0 batch) := by
    have := batchLoop_eq_spec clock t batch 0 []
      (by intro i hi; simpa using hclock i hi) (by simpa using h50)
      (by intro key hkey; simp [Params.keys] at hkey)
    simpa using this
  refine ⟨specMergedParams t 0 batch, hloop, ?_⟩
  have := specMergedParams_find_timestamp t batch 0 j hj (by simpa using h50)
  simp only [Nat.zero_add] at this
  rw [this, find_recordParams_timestamp]

/-- Closed instance of C4: in a 2-record batch whose first record has an
explicit timestamp and whose second does not, `timestamp[0]` holds the
explicit value and `timestamp[1]` the second clock reading. -/
theorem scrobble_batch_per_record_timestamp_witness :
    (∃ m, batchLoop (fun i => .ok (1000 + i)) 0 []
        [⟨"A0", "T0", "L0", none, none, none, some 77, none⟩,
         ⟨"A1", "T1", "L1", none, none, none, none, none⟩] = .ok m ∧
      m.find ("timestamp" ++ "[" ++ Nat.repr 0 ++ "]") = some (Nat.repr 77)) ∧
    (∃ m, batchLoop (fun i => .ok (1000 + i)) 0 []
        [⟨"A0", "T0", "L0", none, none, none, some 77, none⟩,
         ⟨"A1", "T1", "L1", none, none, none, none, none⟩] = .ok m ∧
      m.find ("timestamp" ++ "[" ++ Nat.repr 1 ++ "]") = some (Nat.repr 1001)) :=
  ⟨scrobble_batch_per_record_timestamp
      [⟨"A0", "T0", "L0", none, none, none, some 77, none⟩,
       ⟨"A1", "T1", "L1", none, none, none, none, none⟩]
      (fun i => .ok (1000 + i)) (fun i => 1000 + i) (by simp)
      (fun i _ => rfl) 0 (by simp),
   scrobble_batch_per_record_timestamp
      [⟨"A0", "T0", "L0", none, none, none, some 77, none⟩,
       ⟨"A1", "T1", "L1", none, none, none, none, none⟩]
      (fun i => .ok (1000 + i)) (fun i => 1000 + i) (by simp)
      (fun i _ => rfl) 1 (by simp)⟩

end RustfmScrobble
